import Mathlib

/-!
Verification of the exifcheck command-line tool's core logic: the removal
specification parser (`parseRemoveString`), its compaction pass, the
argument handling around it (`getArgs`), and the operation pipeline
(`exifcheck`).  Go slices become `List`, Go `int64`/`IfdId` become `Int`,
Go `uint`/`uint64` become `Nat`, and the external exif library is an
opaque collaborator modelled by an oracle recording calls and choosing
success or failure for each call.
-/

set_option maxRecDepth 4000

/-- Mirror of the Go struct `tagIds`: an enclosing ifd id together with the
tags to delete inside that ifd. -/
structure tagIds where
  ifdId : Int
  tags : List Nat
deriving DecidableEq, Repr, Inhabited

/-- Unknown-tag policy values of the external exif library (`exif.Keep`,
`exif.Remove`, `exif.Stop`). -/
inductive UnknownPolicy where
  | Keep
  | Remove
  | Stop
deriving DecidableEq, Repr, Inhabited

/-- Mirror of the Go struct `exifArgs` (the `exif.Control` fields are kept
as the plain values the program stores in them). -/
structure exifArgs where
  input : String := ""
  output : String := ""
  print : String := ""
  original : String := ""
  tName : String := ""
  mtName : String := ""
  removeIfds : List Int := []
  removeTags : List tagIds := []
  pTiff : Bool := false
  pExif : Bool := false
  pMaker : Bool := false
  pThumb : Bool := false
  warn : Bool := false
  unknown : UnknownPolicy := .Keep
  srlzDbg : Bool := false
  parsDbg : Bool := false
deriving DecidableEq, Repr, Inhabited

/-- Zero value of `exifArgs`, as produced by Go's `new( exifArgs )`. -/
def emptyExifArgs : exifArgs := {}

/-- Character-level model of Go `strings.Split` with a one-character
separator (exact for the ASCII separators "," and ":" used by the program:
`Split("", sep) = [""]`, and empty fields are kept). -/
def splitOnChar (sep : Char) : List Char → List (List Char)
  | [] => [[]]
  | c :: rest =>
    let r := splitOnChar sep rest
    if c = sep then [] :: r
    else
      match r with
      | g :: gs => (c :: g) :: gs
      | [] => [[c]]

/-- Byte value of a character lowered the way Go's strconv does it:
`lower(c) = c | ('x' - 'X')`, i.e. set bit 5. -/
def lowerN (c : Char) : Nat := c.toNat ||| 32

/-- Digit value used by Go's `strconv.ParseUint` conversion loop:
'0'-'9' map to 0-9, letters (case-insensitively) to 10-35, anything else
is a syntax error. -/
def goDigitVal (c : Char) : Option Nat :=
  let n := c.toNat
  if 48 ≤ n ∧ n ≤ 57 then some (n - 48)
  else
    let l := n ||| 32
    if 97 ≤ l ∧ l ≤ 122 then some (l - 97 + 10) else none

/-- Inner loop of Go's `strconv.underscoreOK`: `saw` is '^' at the start of
the number, '0' after a digit or base prefix, '_' after an underscore and
'!' after any other character. -/
def uOKloop (hex : Bool) : List Char → Char → Bool
  | [], saw => saw ≠ '_'
  | c :: r, saw =>
    if (48 ≤ c.toNat ∧ c.toNat ≤ 57) ∨ (hex ∧ 97 ≤ lowerN c ∧ lowerN c ≤ 102) then
      uOKloop hex r '0'
    else if c = '_' then
      if saw ≠ '0' then false else uOKloop hex r '_'
    else if saw = '_' then false
    else uOKloop hex r '!'

/-- Model of Go's `strconv.underscoreOK`: underscores must separate
successive digits or sit between a base prefix and the first digit. -/
def underscoreOK (cs : List Char) : Bool :=
  let s1 :=
    match cs with
    | c :: r => if c = '-' ∨ c = '+' then r else cs
    | [] => cs
  match s1 with
  | c0 :: c1 :: r =>
    if c0 = '0' ∧ (lowerN c1 = 98 ∨ lowerN c1 = 111 ∨ lowerN c1 = 120) then
      uOKloop (lowerN c1 = 120) r '0'
    else uOKloop false s1 '^'
  | _ => uOKloop false s1 '^'

/-- Base selection of Go's `strconv.ParseUint` with `base = 0`: a leading
"0b"/"0o"/"0x" (only when at least one character follows) selects base
2/8/16, any other leading '0' selects base 8, otherwise base 10. -/
def pickBase (cs : List Char) : Nat × List Char :=
  match cs with
  | c :: rest =>
    if c = '0' then
      match rest with
      | c2 :: r2 =>
        if r2 ≠ [] ∧ lowerN c2 = 98 then (2, r2)
        else if r2 ≠ [] ∧ lowerN c2 = 111 then (8, r2)
        else if r2 ≠ [] ∧ lowerN c2 = 120 then (16, r2)
        else (8, rest)
      | [] => (8, [])
    else (10, cs)
  | [] => (10, [])

/-- Digit-conversion loop of Go's `strconv.ParseUint`: consumes digits of
the given base, skipping underscores when base 0 was requested and
recording that one was seen.  The value is accumulated exactly; Go's
in-loop overflow check is applied at the end (`goParseUint0`), which
accepts and rejects exactly the same strings. -/
def goDigitsLoop (base : Nat) : List Char → Nat → Bool → Option (Nat × Bool)
  | [], n, u => some (n, u)
  | c :: r, n, u =>
    if c = '_' then goDigitsLoop base r n true
    else
      match goDigitVal c with
      | none => none
      | some d => if d ≥ base then none else goDigitsLoop base r (n * base + d) u

/-- Model of Go's `strconv.ParseUint(s, 0, 64)`, collapsing both syntax
and range errors to `none` (the program only tests `err != nil`). -/
def goParseUint0 (s : String) : Option Nat :=
  let cs := s.data
  if cs = [] then none
  else
    let bd := pickBase cs
    match goDigitsLoop bd.1 bd.2 0 false with
    | none => none
    | some (n, u) =>
      if u ∧ ¬ underscoreOK cs then none
      else if n > 2 ^ 64 - 1 then none
      else some n

/-- Model of Go's `strconv.ParseInt(s, 0, 64)`: optional sign, then
`ParseUint` on the rest, then the int64 range check.  A range error from
`ParseUint` also ends in an error here, so collapsing it into `none` is
exact. -/
def goParseInt0 (s : String) : Option Int :=
  match s.data with
  | [] => none
  | c :: r =>
    let sr : Bool × List Char :=
      if c = '+' then (false, r) else if c = '-' then (true, r) else (false, c :: r)
    match goParseUint0 (String.mk sr.2) with
    | none => none
    | some un =>
      if ¬ sr.1 ∧ un ≥ 2 ^ 63 then none
      else if sr.1 ∧ un > 2 ^ 63 then none
      else some (if sr.1 then -(un : Int) else (un : Int))

/-- Error message built by `parseRemoveString`:
`fmt.Errorf( "syntax error: -r=%d\n", toRemove )` applies the `%d` verb to
a string, which Go renders as `%!d(string=...)`. -/
def goSynErrMsg (toRemove : String) : String :=
  "syntax error: -r=%!d(string=" ++ toRemove ++ ")\n"

/-- Inner tag loop of `parseRemoveString` (part_000 lines 118-125): parse
each `:tag` token, appending to the accumulated tag list; on a parse error
the tags collected so far are kept and the error is returned. -/
def parseTagsLoop (toRemove : String) (acc : List Nat) :
    List (List Char) → List Nat × Option String
  | [] => (acc, none)
  | t :: rest =>
    match goParseUint0 (String.mk t) with
    | none => (acc, some (goSynErrMsg toRemove))
    | some tag => parseTagsLoop toRemove (acc ++ [tag]) rest

/-- One group of `parseRemoveString` (part_000 lines 106-127): an id alone
goes to `removeIfds`; an id followed by `:tag`s appends a `tagIds` entry
whose tag list holds every tag parsed before a possible error. -/
def parseGroup (pArgs : exifArgs) (toRemove : String) (group : List Char) :
    exifArgs × Option String :=
  let tags := splitOnChar ':' group
  match goParseInt0 (String.mk (tags.headD [])) with
  | none => (pArgs, some (goSynErrMsg toRemove))
  | some ifid =>
    if tags.length = 1 then
      ({ pArgs with removeIfds := pArgs.removeIfds ++ [ifid] }, none)
    else
      let r := parseTagsLoop toRemove [] (tags.drop 1)
      ({ pArgs with removeTags := pArgs.removeTags ++ [⟨ifid, r.1⟩] }, r.2)

/-- Group loop of `parseRemoveString`: process the comma-separated groups
in order, stopping at the first error while keeping the updates already
made to `pArgs` (the Go function mutates `pArgs` through a pointer). -/
def parseGroups (toRemove : String) (pArgs : exifArgs) :
    List (List Char) → exifArgs × Option String
  | [] => (pArgs, none)
  | g :: rest =>
    let r := parseGroup pArgs toRemove g
    match r.2 with
    | some e => (r.1, some e)
    | none => parseGroups toRemove r.1 rest

/-- One iteration of the compaction loop of `parseRemoveString` (part_000
lines 130-147) at index `i`: state is (array, p, n) with `p = -1` until
the first dropped entry.  The inner Go loop over `removeIfds` with `break`
amounts to a membership test, setting `p` on the first drop. -/
def compactStep (rifds : List Int) (st : List tagIds × Int × Nat) (i : Nat) :
    List tagIds × Int × Nat :=
  let arr := st.1
  let p := st.2.1
  let n := st.2.2
  let x := arr.getD i default
  if rifds.contains x.ifdId then
    (arr, (if p = -1 then (i : Int) else p), n)
  else
    if p ≠ -1 then (arr.set p.toNat x, p + 1, n + 1)
    else (arr, p, n + 1)

/-- Compaction pass of `parseRemoveString` (part_000 lines 128-148): the
index loop over the original length followed by the truncation
`removeTags = removeTags[:n]`. -/
def compactGo (rifds : List Int) (rtags : List tagIds) : List tagIds :=
  let st := (List.range rtags.length).foldl (compactStep rifds) (rtags, -1, 0)
  st.1.take st.2.2

/-- Model of `parseRemoveString` (part_000 lines 102-150).  The Go
function mutates `pArgs` and returns an `error`; here it returns the
updated arguments together with the optional error.  On an error the
partially updated arguments are returned unchanged and the compaction
pass does not run; on success the compaction pass rewrites `removeTags`. -/
def parseRemoveString (pArgs : exifArgs) (toRemove : String) :
    exifArgs × Option String :=
  match parseGroups toRemove pArgs (splitOnChar ',' toRemove.data) with
  | (a, some e) => (a, some e)
  | (a, none) =>
    ({ a with removeTags := compactGo a.removeIfds a.removeTags }, none)

/-- Model of the removal-specification handling in `getArgs` (part_000
lines 219-222): `parseRemoveString` is called only on a non-empty `-r`
value and its returned error is discarded — `getArgs` returns
`(pArgs, nil)` regardless.  The `Option String` is the error `getArgs`
returns on this path, which is always `none`. -/
def getArgsRemoveModel (toRemove : String) : exifArgs × Option String :=
  if toRemove ≠ "" then ((parseRemoveString emptyExifArgs toRemove).1, none)
  else (emptyExifArgs, none)

/-- Model of the `-u` policy selection in `getArgs` (part_000 lines
198-207): Go evaluates `store[0]`, which panics (index out of range) on an
empty string — modelled by `none`; otherwise the first byte selects the
policy or falls to the error branch. -/
def storePolicy (store : String) : Option (Except String UnknownPolicy) :=
  match store.data with
  | [] => none
  | c :: _ =>
    if c = 'k' ∨ c = 'K' then some (.ok .Keep)
    else if c = 'r' ∨ c = 'R' then some (.ok .Remove)
    else if c = 's' ∨ c = 'S' then some (.ok .Stop)
    else some (.error ("Unknown action: " ++ store ++ "\n"))

/-- Ifd ids of the external exif library.  The repository's own help text
fixes primary = 0 and thumbnail = 1; the remaining ids are the library's
successive constants.  Only their distinctness matters to the program. -/
def PRIMARY : Int := 0

/-- Thumbnail ifd id (see `PRIMARY`). -/
def THUMBNAIL : Int := 1

/-- Exif ifd id (see `PRIMARY`). -/
def EXIF : Int := 2

/-- Gps ifd id (see `PRIMARY`). -/
def GPS : Int := 3

/-- Interoperability ifd id (see `PRIMARY`). -/
def IOP : Int := 4

/-- Maker-note ifd id (see `PRIMARY`). -/
def MAKER : Int := 5

/-- Embedded (maker preview) ifd id (see `PRIMARY`). -/
def EMBEDDED : Int := 6

/-- Section-selection expansion in `exifcheck` (part_000 lines 248-266):
the reslice-and-assign blocks append fixed ids for each print flag. -/
def selectIfds (pTiff pExif pMaker : Bool) : List Int :=
  let ifds : List Int := []
  let ifds := if pTiff then ifds ++ [PRIMARY, THUMBNAIL] else ifds
  let ifds := if pExif then ifds ++ [EXIF, GPS, IOP] else ifds
  if pMaker then ifds ++ [MAKER, EMBEDDED] else ifds

/-- Handling of the `-all` flag in `getArgs` (part_000 lines 212-216): it
forces all three print flags. -/
def applyAllFlag (all pTiff pExif pMaker : Bool) : Bool × Bool × Bool :=
  if all then (true, true, true) else (pTiff, pExif, pMaker)

/-- Calls the pipeline makes against the external exif library and the
file system, in the order they are issued. -/
inductive Event where
  | read
  | thumbInfo
  | openPrint
  | formatIfds (ifds : List Int)
  | writeOriginal
  | writeThumbnail (which : Int)
  | removeTag (id : Int) (tag : Nat)
  | removeIfd (id : Int)
  | write
deriving DecidableEq, Repr

/-- Oracle for the external collaborator: for each fallible call it says
whether the call succeeds.  `removeTagOk` exists so that a failing
`RemoveTag` call can be expressed; the program never consults it because
it discards that call's result (part_000 line 311). -/
structure Collab where
  readOk : Bool
  openPrintOk : Bool
  writeOriginalOk : Bool
  writeThumbOk : Int → Bool
  removeTagOk : Int → Nat → Bool
  removeIfdOk : Int → Bool
  writeOk : Bool

/-- Load stage (part_000 lines 233-237): `exif.Read`, aborting on error. -/
def readStage (c : Collab) : List Event × Bool :=
  ([.read], c.readOk)

/-- Thumbnail-inspection stage (part_000 lines 239-246): runs only under
`-t`; `GetThumbnailInfo` and the printing cannot fail. -/
def thumbStage (p : exifArgs) : List Event × Bool :=
  ((if p.pThumb then [.thumbInfo] else []), true)

/-- Print stage (part_000 lines 248-280): when any section is selected,
an output file is opened if `-p` names one (aborting on failure) and
`FormatIfds` is called; its result is not checked. -/
def formatStage (p : exifArgs) (c : Collab) : List Event × Bool :=
  let ifds := selectIfds p.pTiff p.pExif p.pMaker
  if ifds.length > 0 then
    if p.print ≠ "" then
      if c.openPrintOk then ([.openPrint, .formatIfds ifds], true)
      else ([.openPrint], false)
    else ([.formatIfds ifds], true)
  else ([], true)

/-- Original-metadata extraction stage (part_000 lines 282-288). -/
def originalStage (p : exifArgs) (c : Collab) : List Event × Bool :=
  if p.original ≠ "" then ([.writeOriginal], c.writeOriginalOk) else ([], true)

/-- Exif-thumbnail extraction stage (part_000 lines 290-296). -/
def thumbExtractStage (p : exifArgs) (c : Collab) : List Event × Bool :=
  if p.tName ≠ "" then
    ([.writeThumbnail THUMBNAIL], c.writeThumbOk THUMBNAIL)
  else ([], true)

/-- Maker-thumbnail extraction stage (part_000 lines 298-304). -/
def makerThumbStage (p : exifArgs) (c : Collab) : List Event × Bool :=
  if p.mtName ≠ "" then
    ([.writeThumbnail EMBEDDED], c.writeThumbOk EMBEDDED)
  else ([], true)

/-- Field-removal calls issued by the nested loops of part_000 lines
306-314: one `RemoveTag` call per (group, tag), in plan order. -/
def removeTagEvents (l : List tagIds) : List Event :=
  l.flatMap fun ti => ti.tags.map (Event.removeTag ti.ifdId)

/-- Field-removal stage (part_000 lines 306-314): the `RemoveTag` return
value is discarded, so this stage never fails (the surrounding
`if len > 0` guard does not change the emitted calls). -/
def removeTagsStage (p : exifArgs) : List Event × Bool :=
  (removeTagEvents p.removeTags, true)

/-- Whole-ifd removal loop (part_000 lines 316-323): `RemoveIfd` per id in
order, aborting at the first failing call. -/
def removeIfdsLoop (c : Collab) : List Int → List Event × Bool
  | [] => ([], true)
  | id :: rest =>
    if c.removeIfdOk id then
      let r := removeIfdsLoop c rest
      (Event.removeIfd id :: r.1, r.2)
    else ([Event.removeIfd id], false)

/-- Whole-ifd removal stage (part_000 lines 316-323). -/
def removeIfdsStage (p : exifArgs) (c : Collab) : List Event × Bool :=
  removeIfdsLoop c p.removeIfds

/-- Persistence stage (part_000 lines 325-331): `md.Write` when `-o`
names an output, aborting on failure. -/
def writeStage (p : exifArgs) (c : Collab) : List Event × Bool :=
  if p.output ≠ "" then ([.write], c.writeOk) else ([], true)

/-- The pipeline stages of `exifcheck` after argument parsing, in source
order.  Each stage contributes the calls it issues and whether it
succeeds; both depend only on the configuration and the oracle, so the
sequential early-return structure of the Go function is exactly
`runStages` over this list. -/
def stagesOf (p : exifArgs) (c : Collab) : List (List Event × Bool) :=
  [readStage c, thumbStage p, formatStage p c, originalStage p c,
   thumbExtractStage p c, makerThumbStage p c, removeTagsStage p,
   removeIfdsStage p c, writeStage p c]

/-- Sequencing with early return, as in the Go function's repeated
`if err != nil { ...; return 1 }`: stages run in order, a failing stage
stops execution with exit code 1, and a full run exits 0. -/
def runStages : List (List Event × Bool) → Int × List Event
  | [] => (0, [])
  | st :: rest =>
    if st.2 then
      let r := runStages rest
      (r.1, st.1 ++ r.2)
    else (1, st.1)

/-- Model of `exifcheck` (part_000 lines 225-333) from the point where
argument parsing has succeeded: the exit code and the sequence of
collaborator calls. -/
def exifcheckRun (p : exifArgs) (c : Collab) : Int × List Event :=
  runStages (stagesOf p c)

/-- Selects the mutation calls and the persistence call from a trace. -/
def isMutOrWrite : Event → Bool
  | .removeTag _ _ => true
  | .removeIfd _ => true
  | .write => true
  | _ => false

/-- Success of every collaborator call the program checks; the result of
`removeTagOk` is deliberately unconstrained. -/
def Collab.allOk (c : Collab) : Prop :=
  c.readOk = true ∧ c.openPrintOk = true ∧ c.writeOriginalOk = true ∧
  (∀ w, c.writeThumbOk w = true) ∧ (∀ i, c.removeIfdOk i = true) ∧
  c.writeOk = true

/-- Retention predicate of the compaction pass: a field-deletion group is
kept when its ifd id is not in the whole-ifd deletion list. -/
def keepTag (rifds : List Int) (x : tagIds) : Bool := !(rifds.contains x.ifdId)

/-- State of the compaction loop after the first `i` iterations. -/
def compactIter (rifds : List Int) (rtags : List tagIds) (i : Nat) :
    List tagIds × Int × Nat :=
  (List.range i).foldl (compactStep rifds) (rtags, -1, 0)

theorem compactIter_succ (rifds : List Int) (rtags : List tagIds) (i : Nat) :
    compactIter rifds rtags (i + 1)
      = compactStep rifds (compactIter rifds rtags i) i := by
  unfold compactIter
  rw [List.range_succ, List.foldl_append, List.foldl_cons, List.foldl_nil]

theorem compactStep_def (rifds : List Int) (arr : List tagIds) (p : Int)
    (n : Nat) (i : Nat) :
    compactStep rifds (arr, p, n) i
      = (if rifds.contains ((arr.getD i default).ifdId) then
           (arr, (if p = -1 then (i : Int) else p), n)
         else if p ≠ -1 then
           (arr.set p.toNat (arr.getD i default), p + 1, n + 1)
         else (arr, p, n + 1)) := rfl


/-- Loop invariant of the compaction pass: positions at or beyond `i` are
untouched, and either no entry has been dropped yet (`p = -1`, the array
is the original and every processed entry is kept) or `p` equals the
count `n` of kept entries and the first `n` slots hold exactly the kept
prefix, in order. -/
theorem compactIter_inv (rifds : List Int) (rtags : List tagIds) :
    ∀ i, i ≤ rtags.length →
      (compactIter rifds rtags i).1.length = rtags.length ∧
      (compactIter rifds rtags i).1.drop i = rtags.drop i ∧
      (((compactIter rifds rtags i).2.1 = -1 ∧
        (compactIter rifds rtags i).1 = rtags ∧
        (compactIter rifds rtags i).2.2 = i ∧
        (rtags.take i).filter (keepTag rifds) = rtags.take i)
       ∨ ((compactIter rifds rtags i).2.1 = ((compactIter rifds rtags i).2.2 : Int) ∧
          (compactIter rifds rtags i).2.2 ≤ i ∧
          (compactIter rifds rtags i).1.take (compactIter rifds rtags i).2.2
            = (rtags.take i).filter (keepTag rifds))) := by
  intro i
  induction i with
  | zero =>
    intro _
    refine ⟨rfl, rfl, Or.inl ⟨rfl, rfl, rfl, rfl⟩⟩
  | succ i ih =>
    intro hsucc
    have hile : i ≤ rtags.length := Nat.le_of_succ_le hsucc
    have hi : i < rtags.length := hsucc
    obtain ⟨hlen, hdrop, hcase⟩ := ih hile
    rcases hst : compactIter rifds rtags i with ⟨arr, p, n⟩
    rw [hst] at hlen hdrop hcase
    simp only at hlen hdrop hcase
    have harr_i : arr[i]? = rtags[i]? := by
      have h1 := List.getElem?_drop arr i 0
      have h2 := List.getElem?_drop rtags i 0
      rw [hdrop] at h1
      rw [h2] at h1
      simpa using h1.symm
    have hsome : rtags[i]? = some rtags[i] := List.getElem?_eq_getElem hi
    have hx : arr.getD i default = rtags[i] := by
      rw [List.getD_eq_getElem?_getD, harr_i, hsome]
      rfl
    have htake : rtags.take (i + 1) = rtags.take i ++ [rtags[i]] := by
      rw [List.take_succ, hsome]
      rfl
    rw [compactIter_succ, hst, compactStep_def, hx]
    by_cases hk : rifds.contains (rtags[i]).ifdId
    · -- dropped entry
      have hmem : (rtags[i]).ifdId ∈ rifds := by simpa using hk
      have hfil : (rtags.take (i + 1)).filter (keepTag rifds)
          = (rtags.take i).filter (keepTag rifds) := by
        rw [htake, List.filter_append]
        simp [keepTag, hmem]
      rw [if_pos hk]
      rcases hcase with ⟨hp, harr, hn, hfl⟩ | ⟨hpn, hni, htk⟩
      · rw [if_pos hp]
        dsimp only
        refine ⟨hlen, ?_, Or.inr ⟨?_, ?_, ?_⟩⟩
        · simpa using congrArg (List.drop (i + 1)) harr
        · rw [hn]
        · omega
        · rw [hfil, hfl, hn, harr]
      · have hpne : p ≠ -1 := by rw [hpn]; omega
        rw [if_neg hpne]
        dsimp only
        refine ⟨hlen, ?_, Or.inr ⟨hpn, by omega, ?_⟩⟩
        · rw [← List.drop_drop, hdrop, List.drop_drop]
        · rw [hfil, htk]
    · -- kept entry
      have hmem : (rtags[i]).ifdId ∉ rifds := by simpa using hk
      have hfil : (rtags.take (i + 1)).filter (keepTag rifds)
          = (rtags.take i).filter (keepTag rifds) ++ [rtags[i]] := by
        rw [htake, List.filter_append]
        simp [keepTag, hmem]
      rw [if_neg hk]
      rcases hcase with ⟨hp, harr, hn, hfl⟩ | ⟨hpn, hni, htk⟩
      · rw [if_neg (by simp [hp])]
        dsimp only
        refine ⟨hlen, ?_, Or.inl ⟨hp, harr, by omega, ?_⟩⟩
        · simpa using congrArg (List.drop (i + 1)) harr
        · rw [hfil, hfl, ← htake]
      · have hpne : p ≠ -1 := by rw [hpn]; omega
        rw [if_pos hpne]
        dsimp only
        have hnlen : n ≤ i := hni
        have hnarr : n < arr.length := by omega
        have hptn : p.toNat = n := by rw [hpn]; exact Int.toNat_natCast n
        refine ⟨?_, ?_, Or.inr ⟨?_, by omega, ?_⟩⟩
        · simp [hlen]
        · rw [List.drop_set, if_pos (by omega : p.toNat < i + 1),
            ← List.drop_drop, hdrop, List.drop_drop]
        · rw [hpn]
          push_cast
          ring
        · rw [hptn, List.set_take]
          have harrtake : arr.take (n + 1) = arr.take n ++ [arr[n]] := by
            rw [List.take_succ, List.getElem?_eq_getElem hnarr]
            rfl
          rw [harrtake, List.set_append]
          have hlt : (arr.take n).length = n := by
            simp [List.length_take]
            omega
          rw [if_neg (by omega : ¬ n < (arr.take n).length)]
          rw [hlt]
          simp only [Nat.sub_self, List.set_cons_zero]
          rw [htk, hfil]

/-- The Go index-swap compaction equals the stable order-preserving
filter keeping the groups whose ifd id is not wholly deleted. -/
theorem compactGo_eq_filter (rifds : List Int) (rtags : List tagIds) :
    compactGo rifds rtags = rtags.filter (keepTag rifds) := by
  have h := compactIter_inv rifds rtags rtags.length (Nat.le_refl _)
  rcases hst : compactIter rifds rtags rtags.length with ⟨arr, p, n⟩
  rw [hst] at h
  simp only at h
  obtain ⟨hlen, _, hcase⟩ := h
  have hgo : compactGo rifds rtags = arr.take n := by
    unfold compactGo
    have heq : (List.range rtags.length).foldl (compactStep rifds) (rtags, -1, 0)
        = (arr, p, n) := hst
    rw [heq]
  rcases hcase with ⟨_, harr, hn, hfl⟩ | ⟨_, _, htk⟩
  · rw [List.take_length] at hfl
    rw [hgo, harr, hn, List.take_length]
    exact hfl.symm
  · rw [List.take_length] at htk
    rw [hgo, htk]

/-- Tests whether the policy selection ended in the error branch. -/
def isPolicyError : Option (Except String UnknownPolicy) → Bool
  | some (.error _) => true
  | _ => false

/-- Expected condition for the policy error branch: a non-empty string
whose first character is none of k, K, r, R, s, S. -/
def policyErrExpected (s : String) : Bool :=
  match s.data with
  | [] => false
  | c :: _ =>
    !(decide ((c = 'k' ∨ c = 'K') ∨ (c = 'r' ∨ c = 'R') ∨ (c = 's' ∨ c = 'S')))

/-- Unfolding of `parseRemoveString` when the group loop fails: the
partially updated arguments and the error are returned unchanged. -/
theorem parseRemoveString_err (pArgs : exifArgs) (s : String) (a : exifArgs)
    (e : String)
    (hpg : parseGroups s pArgs (splitOnChar ',' s.data) = (a, some e)) :
    parseRemoveString pArgs s = (a, some e) := by
  unfold parseRemoveString
  rw [hpg]

/-- Unfolding of `parseRemoveString` when the group loop succeeds: the
compaction pass rewrites `removeTags`. -/
theorem parseRemoveString_success (pArgs : exifArgs) (s : String)
    (a : exifArgs)
    (hpg : parseGroups s pArgs (splitOnChar ',' s.data) = (a, none)) :
    parseRemoveString pArgs s
      = ({ a with removeTags := compactGo a.removeIfds a.removeTags }, none) := by
  unfold parseRemoveString
  rw [hpg]

/-- C1: for every well-formed removal specification string, after parsing
and the compaction pass at the end of parseRemoveString, no entry of
removeTags has an ifdId that is an element of removeIfds. -/
theorem parseRemoveString_no_overlap (s : String)
    (h : (parseRemoveString emptyExifArgs s).2 = none) :
    ∀ g ∈ (parseRemoveString emptyExifArgs s).1.removeTags,
      (parseRemoveString emptyExifArgs s).1.removeIfds.contains g.ifdId = false := by
  rcases hpg : parseGroups s emptyExifArgs (splitOnChar ',' s.data) with ⟨a, err⟩
  cases err with
  | some e =>
    rw [parseRemoveString_err emptyExifArgs s a e hpg] at h
    simp at h
  | none =>
    rw [parseRemoveString_success emptyExifArgs s a hpg]
    dsimp only
    intro g hg
    rw [compactGo_eq_filter] at hg
    have hk := List.of_mem_filter hg
    simp only [keepTag] at hk
    simpa using hk

/-- Witness for C1 at the help text's own example specification. -/
theorem parseRemoveString_no_overlap_witness :
    (parseRemoveString emptyExifArgs "0:0x131:0x132,1").2 = none ∧
    ∀ g ∈ (parseRemoveString emptyExifArgs "0:0x131:0x132,1").1.removeTags,
      (parseRemoveString emptyExifArgs
        "0:0x131:0x132,1").1.removeIfds.contains g.ifdId = false :=
  ⟨by decide, parseRemoveString_no_overlap "0:0x131:0x132,1" (by decide)⟩

/-- C2: the compaction pass is a stable order-preserving filter: it
equals the filter retaining groups whose ifd id is not wholly deleted,
its result is a sublist (hence in the original relative order), every
dropped group has its ifd id in removeIfds, and every other group is
retained. -/
theorem compactGo_stable_filter (rifds : List Int) (rtags : List tagIds) :
    compactGo rifds rtags = rtags.filter (keepTag rifds) ∧
    (compactGo rifds rtags).Sublist rtags ∧
    (∀ g ∈ rtags, rifds.contains g.ifdId = true → g ∉ compactGo rifds rtags) ∧
    (∀ g ∈ rtags, rifds.contains g.ifdId = false → g ∈ compactGo rifds rtags) := by
  refine ⟨compactGo_eq_filter rifds rtags, ?_, ?_, ?_⟩
  · rw [compactGo_eq_filter]
    exact List.filter_sublist rtags
  · intro g _ hc hmem
    rw [compactGo_eq_filter] at hmem
    have hk := List.of_mem_filter hmem
    simp only [keepTag, hc] at hk
    exact absurd hk (by decide)
  · intro g hg hc
    rw [compactGo_eq_filter]
    refine List.mem_filter.mpr ⟨hg, ?_⟩
    simp only [keepTag, hc]
    rfl

/-- Witness for C2 on a concrete plan. -/
theorem compactGo_stable_filter_witness :
    compactGo [2] [⟨1, [3]⟩, ⟨2, [5]⟩] = [⟨1, [3]⟩] ∧
    (⟨2, [5]⟩ : tagIds) ∉ compactGo [2] [⟨1, [3]⟩, ⟨2, [5]⟩] :=
  ⟨by decide,
   (compactGo_stable_filter [2] [⟨1, [3]⟩, ⟨2, [5]⟩]).2.2.1 ⟨2, [5]⟩
     (by decide) (by decide)⟩

/-- C3 (code evaluated at a failing input): parseRemoveString does build
a descriptive error for the malformed specification "abc", but getArgs
discards it and reports success, so no parse error reaches the caller. -/
theorem parseError_discarded_by_getArgs :
    (parseRemoveString emptyExifArgs "abc").2 = some (goSynErrMsg "abc") ∧
    (getArgsRemoveModel "abc").2 = none := by
  constructor
  · decide
  · decide

/-- C6: an empty removal specification string (and hence an absent -r
flag, whose default is the empty string) yields the zero-valued
arguments: empty section-deletion list, empty field-deletion-group list,
and no error. -/
theorem emptyRemoveSpec_empty_plan :
    getArgsRemoveModel "" = (emptyExifArgs, none) ∧
    emptyExifArgs.removeIfds = [] ∧ emptyExifArgs.removeTags = [] := by
  refine ⟨by decide, rfl, rfl⟩

/-- C9: on the malformed specification "2:5,2,xyz" parseRemoveString
returns early with an error before the compaction loop, leaving a partial
uncompacted plan in which the retained group for ifd 2 also appears in
removeIfds; getArgs discards the error, so this is the plan the pipeline
consumes. -/
theorem partial_uncompacted_plan_consumed :
    (parseRemoveString emptyExifArgs "2:5,2,xyz").2
      = some (goSynErrMsg "2:5,2,xyz") ∧
    (getArgsRemoveModel "2:5,2,xyz").2 = none ∧
    (getArgsRemoveModel "2:5,2,xyz").1.removeIfds = [2] ∧
    (getArgsRemoveModel "2:5,2,xyz").1.removeTags = [⟨2, [5]⟩] ∧
    (getArgsRemoveModel "2:5,2,xyz").1.removeIfds.contains
      ((⟨2, [5]⟩ : tagIds)).ifdId = true := by
  refine ⟨by decide, by decide, by decide, by decide, by decide⟩

/-- C10: indexing `store[0]` panics on the empty string (modelled as
`none`) instead of reaching the error branch, and the error branch is
reached exactly for non-empty strings whose first character is none of
k, K, r, R, s, S. -/
theorem storePolicy_empty_panics :
    storePolicy "" = none ∧
    ∀ s : String, isPolicyError (storePolicy s) = policyErrExpected s := by
  refine ⟨rfl, ?_⟩
  intro s
  rcases s with ⟨data⟩
  cases data with
  | nil => rfl
  | cons c cs =>
    by_cases h1 : c = 'k' ∨ c = 'K' <;>
      by_cases h2 : c = 'r' ∨ c = 'R' <;>
        by_cases h3 : c = 's' ∨ c = 'S' <;>
          simp [storePolicy, isPolicyError, policyErrExpected, h1, h2, h3]

/-- A run in which every stage succeeds executes all stages, exits 0 and
emits each stage's calls in order. -/
theorem runStages_allOk :
    ∀ l : List (List Event × Bool), (∀ st ∈ l, st.2 = true) →
      runStages l = (0, (l.map Prod.fst).flatten) := by
  intro l
  induction l with
  | nil => intro _; rfl
  | cons st rest ih =>
    intro h
    have h1 := h st (List.mem_cons_self st rest)
    unfold runStages
    rw [h1]
    simp only [if_true]
    rw [ih fun x hx => h x (List.mem_cons_of_mem st hx)]
    simp [List.flatten]

/-- If the first failing stage is stage `i`, the run exits 1 having
executed exactly the calls of stages 0 through `i` and nothing after. -/
theorem runStages_firstFail :
    ∀ (l : List (List Event × Bool)) (i : Nat) (h : i < l.length),
      (∀ j (hj : j < i), (l.get ⟨j, Nat.lt_trans hj h⟩).2 = true) →
      (l.get ⟨i, h⟩).2 = false →
      runStages l = (1, ((l.take (i + 1)).map Prod.fst).flatten) := by
  intro l
  induction l with
  | nil => intro i h; exact absurd h (Nat.not_lt_zero i)
  | cons st rest ih =>
    intro i h hpre hfail
    cases i with
    | zero =>
      have hf : st.2 = false := hfail
      unfold runStages
      rw [hf]
      simp
    | succ j =>
      have h0 : st.2 = true := hpre 0 (Nat.succ_pos j)
      have hj : j < rest.length := Nat.lt_of_succ_lt_succ h
      have hpre2 : ∀ k (hk : k < j),
          (rest.get ⟨k, Nat.lt_trans hk hj⟩).2 = true := by
        intro k hk
        exact hpre (k + 1) (Nat.succ_lt_succ hk)
      have hfail2 : (rest.get ⟨j, hj⟩).2 = false := hfail
      unfold runStages
      rw [h0]
      simp only [if_true]
      rw [ih j hj hpre2 hfail2]
      simp [List.flatten]

/-- The whole-ifd removal loop under an oracle that accepts every
`RemoveIfd` call: one call per id, in order, succeeding. -/
theorem removeIfdsLoop_allOk (c : Collab)
    (h : ∀ i, c.removeIfdOk i = true) :
    ∀ l : List Int, removeIfdsLoop c l = (l.map Event.removeIfd, true) := by
  intro l
  induction l with
  | nil => rfl
  | cons id rest ih =>
    unfold removeIfdsLoop
    rw [h id]
    simp only [if_true]
    rw [ih]
    rfl

/-- When every checked collaborator call succeeds, the pipeline executes
every stage and exits 0, whatever `removeTagOk` answers. -/
theorem exifcheckRun_allOk (p : exifArgs) (c : Collab) (hok : c.allOk) :
    exifcheckRun p c = (0, ((stagesOf p c).map Prod.fst).flatten) := by
  obtain ⟨h1, h2, h3, h4, h5, h6⟩ := hok
  apply runStages_allOk
  intro st hst
  simp only [stagesOf, List.mem_cons, List.not_mem_nil, or_false] at hst
  rcases hst with rfl | rfl | rfl | rfl | rfl | rfl | rfl | rfl | rfl
  · exact h1
  · rfl
  · simp only [formatStage, h2]
    split
    · split
      · simp
      · simp
    · simp
  · simp only [originalStage, h3]
    split <;> simp
  · simp only [thumbExtractStage, h4]
    split <;> simp
  · simp only [makerThumbStage, h4]
    split <;> simp
  · rfl
  · simp only [removeIfdsStage, removeIfdsLoop_allOk c h5]
  · simp only [writeStage, h6]
    split <;> simp

/-- Configuration exercising a failing field-level removal: one field
deletion, one whole-ifd deletion and an output path. -/
def cexArgsC4 : exifArgs :=
  { emptyExifArgs with
    output := "out", removeTags := [⟨0, [1]⟩], removeIfds := [2] }

/-- Oracle on which every `RemoveTag` call fails and everything else
succeeds. -/
def cexCollabC4 : Collab :=
  ⟨true, true, true, fun _ => true, fun _ _ => false, fun _ => true, true⟩

/-- C4 counterexample: the collaborator refuses the field-level
`RemoveTag` call, yet the pipeline still performs the whole-ifd removal
and the final `Write` and exits 0 — the code discards the result of
`RemoveTag` (part_000 line 311), so a failing call in the field-removal
stage neither aborts the remaining stages nor produces exit code 1. -/
theorem removeTagFailureIgnored_cex :
    cexCollabC4.removeTagOk 0 1 = false ∧
    (exifcheckRun cexArgsC4 cexCollabC4).1 = 0 ∧
    (exifcheckRun cexArgsC4 cexCollabC4).2
      = [.read, .removeTag 0 1, .removeIfd 2, .write] := by
  refine ⟨rfl, by decide, by decide⟩

/-- C4 amended: a failing collaborator call in a stage whose result the
code checks (load, print-file open, original extraction, either thumbnail
extraction, whole-ifd removal, final write) stops the pipeline at that
call with exit code 1 and no later stage executes; the field-level
removal stage never fails because the code ignores the result of every
`RemoveTag` call. -/
theorem checkedStageFailureAborts :
    (∀ (p : exifArgs) (c : Collab) (i : Nat) (h : i < (stagesOf p c).length),
      (∀ j (hj : j < i),
        ((stagesOf p c).get ⟨j, Nat.lt_trans hj h⟩).2 = true) →
      ((stagesOf p c).get ⟨i, h⟩).2 = false →
      exifcheckRun p c
        = (1, (((stagesOf p c).take (i + 1)).map Prod.fst).flatten)) ∧
    (∀ p : exifArgs, (removeTagsStage p).2 = true) :=
  ⟨fun p c i h hpre hfail => runStages_firstFail (stagesOf p c) i h hpre hfail,
   fun _ => rfl⟩

/-- Configuration for the C4 amended witness: an original-extraction path
and an output path. -/
def wArgsC4 : exifArgs := { emptyExifArgs with original := "orig", output := "out" }

/-- Oracle failing exactly the `WriteOriginal` call. -/
def wCollabC4 : Collab :=
  ⟨true, true, false, fun _ => true, fun _ _ => true, fun _ => true, true⟩

/-- Witness for the amended C4: the failing `WriteOriginal` stage (index
3) aborts the run with exit 1 after exactly the calls of stages 0-3. -/
theorem checkedStageFailureAborts_witness :
    wCollabC4.writeOriginalOk = false ∧
    exifcheckRun wArgsC4 wCollabC4
      = (1, (((stagesOf wArgsC4 wCollabC4).take 4).map Prod.fst).flatten) :=
  ⟨rfl,
   checkedStageFailureAborts.1 wArgsC4 wCollabC4 3 (by decide)
     (by
       intro j hj
       interval_cases j <;> rfl)
     (by decide)⟩

/-- Field-removal calls keep only mutation events under the filter. -/
theorem filter_removeTagEvents (l : List tagIds) :
    (removeTagEvents l).filter isMutOrWrite = removeTagEvents l := by
  apply List.filter_eq_self.mpr
  intro a ha
  simp only [removeTagEvents, List.mem_flatMap, List.mem_map] at ha
  obtain ⟨ti, _, tag, _, rfl⟩ := ha
  rfl

/-- C5: with a non-empty removal plan and an output path, when every
checked collaborator call succeeds the mutation-and-persistence calls of
the run are exactly: every field deletion in plan order, then every
whole-ifd removal in list order, then the single `Write` — persistence
comes after all removals. -/
theorem deletionsBeforePersistence (p : exifArgs) (c : Collab)
    (hok : c.allOk) (hout : p.output ≠ "")
    (_hplan : p.removeTags ≠ [] ∨ p.removeIfds ≠ []) :
    (exifcheckRun p c).2.filter isMutOrWrite
      = removeTagEvents p.removeTags
        ++ p.removeIfds.map Event.removeIfd ++ [Event.write] := by
  rw [exifcheckRun_allOk p c hok]
  obtain ⟨h1, h2, h3, h4, h5, h6⟩ := hok
  simp only [stagesOf, List.map_cons, List.map_nil, List.flatten_cons,
    List.flatten_nil, List.filter_append]
  have hread : (readStage c).1.filter isMutOrWrite = [] := rfl
  have hthumb : (thumbStage p).1.filter isMutOrWrite = [] := by
    unfold thumbStage
    split <;> rfl
  have hformat : (formatStage p c).1.filter isMutOrWrite = [] := by
    unfold formatStage
    dsimp only
    repeat' split
    all_goals rfl
  have horig : (originalStage p c).1.filter isMutOrWrite = [] := by
    unfold originalStage
    split <;> rfl
  have htn : (thumbExtractStage p c).1.filter isMutOrWrite = [] := by
    unfold thumbExtractStage
    split <;> rfl
  have hmtn : (makerThumbStage p c).1.filter isMutOrWrite = [] := by
    unfold makerThumbStage
    split <;> rfl
  have hrt : (removeTagsStage p).1.filter isMutOrWrite
      = removeTagEvents p.removeTags := filter_removeTagEvents p.removeTags
  have hri : (removeIfdsStage p c).1.filter isMutOrWrite
      = p.removeIfds.map Event.removeIfd := by
    unfold removeIfdsStage
    rw [removeIfdsLoop_allOk c h5]
    apply List.filter_eq_self.mpr
    intro a ha
    simp only [List.mem_map] at ha
    obtain ⟨id, _, rfl⟩ := ha
    rfl
  have hw : (writeStage p c).1.filter isMutOrWrite = [Event.write] := by
    unfold writeStage
    rw [if_pos hout]
    rfl
  rw [hread, hthumb, hformat, horig, htn, hmtn, hrt, hri, hw]
  simp

/-- Witness configuration for C5. -/
def wArgsC5 : exifArgs :=
  { emptyExifArgs with
    output := "out", removeTags := [⟨0, [1]⟩], removeIfds := [1] }

/-- Oracle accepting every call. -/
def wCollabC5 : Collab :=
  ⟨true, true, true, fun _ => true, fun _ _ => true, fun _ => true, true⟩

/-- Witness for C5 at a concrete plan and oracle. -/
theorem deletionsBeforePersistence_witness :
    wArgsC5.output ≠ "" ∧ wArgsC5.removeTags ≠ [] ∧
    (exifcheckRun wArgsC5 wCollabC5).2.filter isMutOrWrite
      = removeTagEvents wArgsC5.removeTags
        ++ wArgsC5.removeIfds.map Event.removeIfd ++ [Event.write] :=
  ⟨by decide, by decide,
   deletionsBeforePersistence wArgsC5 wCollabC5
     ⟨rfl, rfl, rfl, fun _ => rfl, fun _ => rfl, rfl⟩
     (by decide) (Or.inl (by decide))⟩

/-- C8: the section-selection expansion is total and exact: print-tiff
contributes exactly [primary, thumbnail], print-exif exactly
[exif, gps, interoperability], print-maker exactly [maker, embedded],
concatenated in that order for every flag combination with never a
duplicate id; print-all forces all three flags, and the resulting full
list is the duplicate-free union of the three rows. -/
theorem selectIfds_expansion :
    (∀ a b c : Bool,
      selectIfds a b c
        = (if a then [PRIMARY, THUMBNAIL] else [])
          ++ (if b then [EXIF, GPS, IOP] else [])
          ++ (if c then [MAKER, EMBEDDED] else [])
        ∧ (selectIfds a b c).Nodup) ∧
    (∀ t e m : Bool, applyAllFlag true t e m = (true, true, true)) ∧
    selectIfds true true true
      = [PRIMARY, THUMBNAIL, EXIF, GPS, IOP, MAKER, EMBEDDED] := by
  refine ⟨by decide, ?_, by decide⟩
  intro t e m
  rfl

/-- Modelled from the spec's words: a decimal integer literal, i.e. a
non-empty string of decimal digits. -/
def specDecimalLit (cs : List Char) : Bool :=
  !cs.isEmpty && cs.all fun c => 48 ≤ c.toNat && c.toNat ≤ 57

/-- Modelled from the spec's words: a 0x-prefixed hexadecimal integer
literal, i.e. "0x" or "0X" followed by at least one hexadecimal digit. -/
def specHexLit (cs : List Char) : Bool :=
  match cs with
  | '0' :: x :: rest =>
    (x = 'x' || x = 'X') && !rest.isEmpty &&
      rest.all fun c =>
        (48 ≤ c.toNat && c.toNat ≤ 57) || (97 ≤ lowerN c && lowerN c ≤ 102)
  | _ => false

/-- Positional value of a digit string in the given base, with digit
values as assigned by `goDigitVal`. -/
def digitsVal (base : Nat) (cs : List Char) : Nat :=
  cs.foldl (fun n c => n * base + (goDigitVal c).getD 0) 0

/-- The conversion loop on a string of valid digits for the base computes
the positional value and sees no underscore. -/
theorem goDigitsLoop_digits (base : Nat) :
    ∀ (cs : List Char) (n : Nat),
      (∀ c ∈ cs, ∃ d, goDigitVal c = some d ∧ d < base) →
      goDigitsLoop base cs n false
        = some (cs.foldl (fun m c => m * base + (goDigitVal c).getD 0) n,
                false) := by
  intro cs
  induction cs with
  | nil => intro n _; rfl
  | cons c r ih =>
    intro n h
    obtain ⟨d, hd, hdb⟩ := h c (List.mem_cons_self c r)
    have hne : c ≠ '_' := by
      intro heq
      subst heq
      have hnone : goDigitVal '_' = none := by decide
      rw [hnone] at hd
      exact Option.noConfusion hd
    unfold goDigitsLoop
    rw [if_neg hne, hd]
    dsimp only
    rw [if_neg (by omega : ¬ d ≥ base)]
    rw [ih _ fun x hx => h x (List.mem_cons_of_mem c hx)]
    rw [List.foldl_cons]
    simp only [hd, Option.getD_some]

/-- A non-empty all-digit token without a leading zero and with value
below 2^63 is accepted by the section-token parser with its decimal
value. -/
theorem goParseInt0_decimal (cs : List Char)
    (hne : cs ≠ []) (hhead : cs.headD ' ' ≠ '0')
    (hdig : ∀ c ∈ cs, 48 ≤ c.toNat ∧ c.toNat ≤ 57)
    (hval : digitsVal 10 cs < 2 ^ 63) :
    goParseInt0 (String.mk cs) = some (digitsVal 10 cs) := by
  cases cs with
  | nil => exact absurd rfl hne
  | cons c r =>
    have hc := hdig c (List.mem_cons_self c r)
    have hplus : c ≠ '+' := by
      intro heq
      subst heq
      exact absurd hc (by decide)
    have hminus : c ≠ '-' := by
      intro heq
      subst heq
      exact absurd hc (by decide)
    have hc0 : c ≠ '0' := by simpa using hhead
    have hdall : ∀ x ∈ c :: r, ∃ d, goDigitVal x = some d ∧ d < 10 := by
      intro x hx
      have hx2 := hdig x hx
      refine ⟨x.toNat - 48, ?_, by omega⟩
      unfold goDigitVal
      rw [if_pos hx2]
    have hu : goParseUint0 (String.mk (c :: r)) = some (digitsVal 10 (c :: r)) := by
      unfold goParseUint0
      dsimp only
      rw [if_neg (by simp : ¬ (c :: r) = ([] : List Char))]
      have hpb : pickBase (c :: r) = (10, c :: r) := by
        unfold pickBase
        dsimp only
        rw [if_neg hc0]
      rw [hpb]
      dsimp only
      rw [goDigitsLoop_digits 10 (c :: r) 0 hdall]
      dsimp only
      rw [if_neg (by simp)]
      rw [if_neg (by unfold digitsVal at hval; omega)]
      rfl
    unfold goParseInt0
    dsimp only
    rw [if_neg hplus, if_neg hminus]
    dsimp only
    rw [hu]
    dsimp only
    rw [if_neg (by
      unfold digitsVal at hval
      simp only [not_and, not_le]
      intro _
      exact hval)]
    rw [if_neg (by simp)]
    rfl

/-- A 0x-prefixed token of hexadecimal digits with value below 2^63 is
accepted by the section-token parser with its hexadecimal value. -/
theorem goParseInt0_hex (cs : List Char)
    (hne : cs ≠ [])
    (hdig : ∀ c ∈ cs, ∃ d, goDigitVal c = some d ∧ d < 16)
    (hval : digitsVal 16 cs < 2 ^ 63) :
    goParseInt0 (String.mk ('0' :: 'x' :: cs)) = some (digitsVal 16 cs) := by
  have hu : goParseUint0 (String.mk ('0' :: 'x' :: cs))
      = some (digitsVal 16 cs) := by
    unfold goParseUint0
    dsimp only
    rw [if_neg (by simp : ¬ ('0' :: 'x' :: cs) = ([] : List Char))]
    have hpb : pickBase ('0' :: 'x' :: cs) = (16, cs) := by
      unfold pickBase
      dsimp only
      rw [if_pos rfl]
      rw [if_neg fun h => absurd h.2 (by decide)]
      rw [if_neg fun h => absurd h.2 (by decide)]
      rw [if_pos ⟨hne, by decide⟩]
    rw [hpb]
    dsimp only
    rw [goDigitsLoop_digits 16 cs 0 hdig]
    dsimp only
    rw [if_neg (by simp)]
    rw [if_neg (by unfold digitsVal at hval; omega)]
    rfl
  unfold goParseInt0
  dsimp only
  rw [if_neg (by decide : ¬ ('0' : Char) = '+'), if_neg (by decide : ¬ ('0' : Char) = '-')]
  dsimp only
  rw [hu]
  dsimp only
  rw [if_neg (by
    unfold digitsVal at hval
    simp only [not_and, not_le]
    intro _
    exact hval)]
  rw [if_neg (by simp)]
  rfl

/-- C7 counterexample: the token "0b11" is accepted as a section token
(parsed as binary, yielding ifd id 3) although it is neither a decimal
nor a 0x-prefixed hexadecimal literal, and the decimal literal "08" is
rejected (a leading zero selects octal, in which the digit 8 is
invalid). -/
theorem tokenAcceptance_cex :
    (parseRemoveString emptyExifArgs "0b11").2 = none ∧
    (parseRemoveString emptyExifArgs "0b11").1.removeIfds = [3] ∧
    specDecimalLit "0b11".data = false ∧
    specHexLit "0b11".data = false ∧
    specDecimalLit "08".data = true ∧
    (parseRemoveString emptyExifArgs "08").2 ≠ none := by
  refine ⟨by decide, by decide, by decide, by decide, by decide, by decide⟩

/-- C7 amended: token acceptance follows Go's base-0 integer syntax
(signed for section tokens, unsigned for field tokens) rather than
exactly decimal-or-0x-hex: every all-digit token without a leading zero
and every 0x-prefixed hexadecimal token (values below 2^63) is accepted
with its standard value, but binary (0b), octal (0o and leading-zero),
underscore-separated and signed section tokens are accepted as well,
while leading-zero decimals containing the digit 8 or 9 and signed field
tokens are parse errors. -/
theorem tokenAcceptance_amended :
    (∀ cs : List Char, cs ≠ [] → cs.headD ' ' ≠ '0' →
      (∀ c ∈ cs, 48 ≤ c.toNat ∧ c.toNat ≤ 57) →
      digitsVal 10 cs < 2 ^ 63 →
      goParseInt0 (String.mk cs) = some (digitsVal 10 cs)) ∧
    (∀ cs : List Char, cs ≠ [] →
      (∀ c ∈ cs, ∃ d, goDigitVal c = some d ∧ d < 16) →
      digitsVal 16 cs < 2 ^ 63 →
      goParseInt0 (String.mk ('0' :: 'x' :: cs)) = some (digitsVal 16 cs)) ∧
    goParseInt0 "0b11" = some 3 ∧
    goParseInt0 "0o17" = some 15 ∧
    goParseInt0 "017" = some 15 ∧
    goParseInt0 "1_0" = some 10 ∧
    goParseInt0 "-5" = some (-5) ∧
    goParseInt0 "08" = none ∧
    goParseUint0 "-5" = none ∧
    (parseRemoveString emptyExifArgs "1:0b1").2 = none ∧
    (parseRemoveString emptyExifArgs "1:0b1").1.removeTags = [⟨1, [1]⟩] ∧
    (parseRemoveString emptyExifArgs "1:-5").2 ≠ none :=
  ⟨goParseInt0_decimal, goParseInt0_hex, by decide, by decide, by decide,
   by decide, by decide, by decide, by decide, by decide, by decide,
   by decide⟩

/-- Witness for the amended C7 at the decimal token "42" and the
hexadecimal token "0x1f". -/
theorem tokenAcceptance_amended_witness :
    (['4', '2'] : List Char) ≠ [] ∧
    goParseInt0 (String.mk ['4', '2']) = some (digitsVal 10 ['4', '2']) ∧
    goParseInt0 (String.mk ['0', 'x', '1', 'f'])
      = some (digitsVal 16 ['1', 'f']) :=
  ⟨by decide,
   tokenAcceptance_amended.1 ['4', '2'] (by decide) (by decide) (by decide)
     (by decide),
   tokenAcceptance_amended.2.1 ['1', 'f'] (by decide) (by decide) (by decide)⟩
